import Mathlib

/-!
Verification of the slide-presentation core of the `mdx` repository:
the `remarkSlides` document segmenter (src/components/DynamicMDX.tsx),
the scroll-driven slide-index tracker (`handleScroll`), programmatic
navigation (`goToSlide`), the broadcast-channel slide synchronisation,
and the presenter projection (src/components/PresenterView.tsx).

The TypeScript source is embedded shallowly: the mdast tree rewritten by
the remark plugin becomes an inductive `Node`; the mutable
`forEach`-with-accumulator loop of `remarkSlides` becomes the structural
recursion `segmentLoop`; the DOM pieces used by the presenter view become
an inductive `DomNode` with an explicit `innerHTML` serialisation, and the
regex-based speaker-notes strip becomes a character-level scanner with the
exact semantics of the pattern used in the source.
-/

/-- A document tree node as seen by the remark plugin: a `type` tag
(for example `paragraph`, `blockquote`, `thematicBreak`,
`mdxJsxFlowElement`), the JSX element `name` (empty for ordinary Markdown
nodes), and the ordered children.  Attributes of JSX nodes are not
inspected by any code under verification and are omitted. -/
inductive Node where
  | mk (ntype : String) (name : String) (children : List Node)

/-- The `type` tag of a node. -/
def Node.ntype : Node → String
  | .mk t _ _ => t

/-- The JSX element name of a node (empty for plain Markdown nodes). -/
def Node.name : Node → String
  | .mk _ n _ => n

/-- The ordered children of a node. -/
def Node.children : Node → List Node
  | .mk _ _ c => c

/-- The slide container pushed by `remarkSlides`:
`{type: mdxJsxFlowElement, name: Slide, attributes: [], children: cs}`. -/
def mkSlide (cs : List Node) : Node :=
  Node.mk "mdxJsxFlowElement" "Slide" cs

/-- A thematic break (the `---` horizontal rule) at any depth. -/
def tbNode : Node :=
  Node.mk "thematicBreak" "" []

/-- The `children.forEach` loop of `remarkSlides` together with the final
flush: `newChildren` is the output accumulator, `slideContent` the pending
buffer; a root child of type `thematicBreak` closes a non-empty buffer
into a `Slide` container, every other root child is appended to the
buffer unchanged. -/
def segmentLoop (newChildren : List Node) (slideContent : List Node) :
    List Node → List Node
  | [] =>
    if slideContent.length > 0 then newChildren ++ [mkSlide slideContent]
    else newChildren
  | n :: rest =>
    if n.ntype = "thematicBreak" then
      if slideContent.length > 0 then
        segmentLoop (newChildren ++ [mkSlide slideContent]) [] rest
      else
        segmentLoop newChildren slideContent rest
    else
      segmentLoop newChildren (slideContent ++ [n]) rest

/-- The `remarkSlides` plugin body as a pure function on the root
children of the tree: `tree.children := remarkSlides tree.children`. -/
def remarkSlides (children : List Node) : List Node :=
  segmentLoop [] [] children

/-- Concatenation of the children of a list of nodes; applied to the
segmenter output it recovers the content placed inside the slides. -/
def joinChildren (l : List Node) : List Node :=
  (l.map Node.children).flatten

/-- Slide count predicted from the root-level type tags alone: `pending`
records whether the buffer is non-empty. -/
def segCount (pending : Bool) : List String → Nat
  | [] => if pending then 1 else 0
  | t :: ts =>
    if t = "thematicBreak" then (if pending then 1 else 0) + segCount false ts
    else segCount true ts

theorem joinChildren_append (a b : List Node) :
    joinChildren (a ++ b) = joinChildren a ++ joinChildren b := by
  simp [joinChildren]

theorem joinChildren_slide (cs : List Node) :
    joinChildren [mkSlide cs] = cs := by
  simp [joinChildren, mkSlide, Node.children]

theorem segmentLoop_no_break (rest : List Node) :
    ∀ acc sc, (∀ n ∈ rest, n.ntype ≠ "thematicBreak") →
      segmentLoop acc sc rest =
        if (sc ++ rest).length > 0 then acc ++ [mkSlide (sc ++ rest)] else acc := by
  induction rest with
  | nil =>
    intro acc sc _
    simp [segmentLoop]
  | cons n rest ih =>
    intro acc sc h
    have hn : n.ntype ≠ "thematicBreak" := h n (List.mem_cons_self n rest)
    have hrest : ∀ m ∈ rest, m.ntype ≠ "thematicBreak" :=
      fun m hm => h m (List.mem_cons_of_mem n hm)
    rw [segmentLoop, if_neg hn, ih _ _ hrest]
    have hlen : (sc ++ n :: rest).length > 0 := by simp
    have hlen2 : (sc ++ [n] ++ rest).length > 0 := by simp
    rw [if_pos hlen2, if_pos hlen]
    simp

theorem segmentLoop_join (rest : List Node) :
    ∀ acc sc, joinChildren (segmentLoop acc sc rest) =
      joinChildren acc ++ sc ++ rest.filter (fun n => !(n.ntype == "thematicBreak")) := by
  induction rest with
  | nil =>
    intro acc sc
    by_cases hsc : sc.length > 0
    · rw [segmentLoop, if_pos hsc, joinChildren_append, joinChildren_slide]
      simp
    · have : sc = [] := by
        cases sc with
        | nil => rfl
        | cons a l => simp at hsc
      subst this
      rw [segmentLoop]
      simp
  | cons n rest ih =>
    intro acc sc
    by_cases hn : n.ntype = "thematicBreak"
    · rw [segmentLoop, if_pos hn]
      by_cases hsc : sc.length > 0
      · rw [if_pos hsc, ih, joinChildren_append, joinChildren_slide,
          List.filter_cons]
        simp [hn]
      · have hsc0 : sc = [] := by
          cases sc with
          | nil => rfl
          | cons a l => simp at hsc
        subst hsc0
        rw [if_neg hsc, ih, List.filter_cons]
        simp [hn]
    · rw [segmentLoop, if_neg hn, ih, List.filter_cons]
      have : (n.ntype == "thematicBreak") = false := by
        simpa using hn
      simp [this]

theorem segmentLoop_length (rest : List Node) :
    ∀ acc sc, (segmentLoop acc sc rest).length =
      acc.length + segCount (decide (sc.length > 0)) (rest.map Node.ntype) := by
  induction rest with
  | nil =>
    intro acc sc
    by_cases hsc : sc.length > 0
    · rw [segmentLoop, if_pos hsc]
      simp [segCount, hsc]
    · rw [segmentLoop, if_neg hsc]
      simp [segCount, hsc]
  | cons n rest ih =>
    intro acc sc
    by_cases hn : n.ntype = "thematicBreak"
    · rw [segmentLoop, if_pos hn]
      by_cases hsc : sc.length > 0
      · rw [if_pos hsc, ih]
        simp [segCount, hn, hsc]
        omega
      · rw [if_neg hsc, ih]
        have hsc0 : sc = [] := by
          cases sc with
          | nil => rfl
          | cons a l => simp at hsc
        subst hsc0
        simp [segCount, hn]
    · rw [segmentLoop, if_neg hn, ih]
      have hlen : (sc ++ [n]).length > 0 := by simp
      simp [segCount, hn, hlen]

theorem segmentLoop_units (rest : List Node) :
    ∀ acc sc, (∀ u ∈ acc, u.ntype = "mdxJsxFlowElement" ∧ u.name = "Slide" ∧ u.children ≠ []) →
      ∀ u ∈ segmentLoop acc sc rest,
        u.ntype = "mdxJsxFlowElement" ∧ u.name = "Slide" ∧ u.children ≠ [] := by
  induction rest with
  | nil =>
    intro acc sc hacc u hu
    by_cases hsc : sc.length > 0
    · rw [segmentLoop, if_pos hsc] at hu
      rcases List.mem_append.mp hu with h | h
      · exact hacc u h
      · have : u = mkSlide sc := by simpa using h
        subst this
        refine ⟨rfl, rfl, ?_⟩
        simp only [mkSlide, Node.children]
        intro hnil
        rw [hnil] at hsc
        simp at hsc
    · rw [segmentLoop, if_neg hsc] at hu
      exact hacc u hu
  | cons n rest ih =>
    intro acc sc hacc u hu
    by_cases hn : n.ntype = "thematicBreak"
    · rw [segmentLoop, if_pos hn] at hu
      by_cases hsc : sc.length > 0
      · rw [if_pos hsc] at hu
        refine ih _ [] ?_ u hu
        intro v hv
        rcases List.mem_append.mp hv with h | h
        · exact hacc v h
        · have : v = mkSlide sc := by simpa using h
          subst this
          refine ⟨rfl, rfl, ?_⟩
          simp only [mkSlide, Node.children]
          intro hnil
          rw [hnil] at hsc
          simp at hsc
      · rw [if_neg hsc] at hu
        exact ih _ _ hacc u hu
    · rw [segmentLoop, if_neg hn] at hu
      exact ih _ _ hacc u hu

theorem segmentLoop_all_breaks (rest : List Node) :
    ∀ acc, (∀ n ∈ rest, n.ntype = "thematicBreak") →
      segmentLoop acc [] rest = acc := by
  induction rest with
  | nil =>
    intro acc _
    simp [segmentLoop]
  | cons n rest ih =>
    intro acc h
    have hn : n.ntype = "thematicBreak" := h n (List.mem_cons_self n rest)
    rw [segmentLoop, if_pos hn]
    simp only [List.length_nil, gt_iff_lt, lt_self_iff_false, if_false]
    exact ih acc (fun m hm => h m (List.mem_cons_of_mem n hm))

/-- Local state of one viewer instance: the `currentSlideIndex` React
state and the number of rendered `section` elements (`totalSlides`).
Before any interaction the index is initialised to `0`. -/
structure ViewState where
  index : Nat
  totalSlides : Nat
deriving DecidableEq

/-- The `goToSlide` function of `DynamicMDX`: the received index is an
arbitrary integer; `slides[index]` exists exactly when
`0 <= index < slides.length`, and only then the section is scrolled into
view and `currentSlideIndex` is set.  The boolean records whether
`scrollIntoView` was performed. -/
def goToSlide (s : ViewState) (i : Int) : ViewState × Bool :=
  if 0 ≤ i ∧ i < (s.totalSlides : Int) then
    ({ s with index := i.toNat }, true)
  else
    (s, false)

/-- The `goToSlide` of `PresenterView`: an explicit range check before
delegating to the parent `onSlideChange` (which is `DynamicMDX.goToSlide`
and re-checks). -/
def presenterGoToSlide (s : ViewState) (i : Int) : ViewState :=
  if 0 ≤ i ∧ i < (s.totalSlides : Int) then (goToSlide s i).1 else s

/-- The JavaScript `Array.prototype.findIndex`: the index of the first
element satisfying the predicate, `-1` when none does. -/
def jsFindIndex (p : α → Bool) : List α → Int
  | [] => -1
  | x :: xs =>
    if p x then 0
    else
      let r := jsFindIndex p xs
      if r = -1 then -1 else r + 1

/-- The `handleScroll` callback of `DynamicMDX`: over the rendered
sections it takes the first whose bounding-rect `top` satisfies
`top >= 0 && top < window.innerHeight / 2`; when `findIndex`
returns `-1` the previous index is kept.  Geometry is embedded with
rational coordinates: `tops` lists `getBoundingClientRect().top` of each
section in document order. -/
def handleScroll (innerHeight : ℚ) (tops : List ℚ) (prev : Nat) : Nat :=
  let currentIndex := jsFindIndex (fun top => decide (0 ≤ top ∧ top < innerHeight / 2)) tops
  if currentIndex ≠ -1 then currentIndex.toNat else prev

/-- A message on the `presentation-sync` broadcast channel
(`{type: SLIDE_CHANGE, slideIndex}`) or the point-to-point
`CLOSE_PRESENTATION` signal. -/
inductive SyncMsg where
  | slideChange (slideIndex : Int)
  | closePresentation
deriving DecidableEq

/-- Reception of one broadcast message by a window running `DynamicMDX`.
The `onmessage` handler reacts only to `SLIDE_CHANGE` and calls
`goToSlide`.  When the window additionally hosts the presenter console
(`hasPresenterView`), the `PresenterView` effect keyed on
`currentSlideIndex` re-posts `{SLIDE_CHANGE, currentSlideIndex}` whenever
that state actually changed (React re-runs the effect only on a changed
value).  The second component lists the outbound broadcasts caused by the
reception. -/
def onSyncMessage (hasPresenterView : Bool) (s : ViewState) :
    SyncMsg → ViewState × List SyncMsg
  | .slideChange i =>
    let s2 := (goToSlide s i).1
    (s2, if hasPresenterView ∧ s2.index ≠ s.index then
      [SyncMsg.slideChange (s2.index : Int)] else [])
  | .closePresentation => (s, [])

/-- The operations that can change the local slide index of a view. -/
inductive ViewOp where
  | scroll (innerHeight : ℚ) (tops : List ℚ)
  | jump (i : Int)
  | receive (i : Int)
  | presenterNext
  | presenterPrev

/-- One index-changing operation: a scroll event re-runs `handleScroll`
over the rendered sections; a programmatic jump and a received
`SLIDE_CHANGE` run `goToSlide`; the presenter navigation buttons and
arrow keys run the bounds-checked `PresenterView` `goToSlide` on
`currentSlideIndex ± 1`. -/
def viewStep (s : ViewState) : ViewOp → ViewState
  | .scroll innerHeight tops => { s with index := handleScroll innerHeight tops s.index }
  | .jump i => (goToSlide s i).1
  | .receive i => (goToSlide s i).1
  | .presenterNext => presenterGoToSlide s ((s.index : Int) + 1)
  | .presenterPrev => presenterGoToSlide s ((s.index : Int) - 1)

/-- Well-formedness of an operation against a view: a scroll event
measures exactly the rendered sections, so the list of measured tops has
one entry per slide. -/
def opWellFormed (s : ViewState) : ViewOp → Prop
  | .scroll _ tops => tops.length = s.totalSlides
  | _ => True

theorem jsFindIndex_of_all_false {p : α → Bool} :
    ∀ l : List α, (∀ x ∈ l, p x = false) → jsFindIndex p l = -1 := by
  intro l
  induction l with
  | nil => intro _; rfl
  | cons a l ih =>
    intro h
    have ha : p a = false := h a (List.mem_cons_self a l)
    have hl : jsFindIndex p l = -1 :=
      ih (fun x hx => h x (List.mem_cons_of_mem a hx))
    simp [jsFindIndex, ha, hl]

theorem jsFindIndex_eq_of_first {p : α → Bool} :
    ∀ (l : List α) (k : Nat) (x : α), l.get? k = some x → p x = true →
      (∀ j y, j < k → l.get? j = some y → p y = false) →
      jsFindIndex p l = (k : Int) := by
  intro l
  induction l with
  | nil =>
    intro k x hx _ _
    simp [List.get?] at hx
  | cons a l ih =>
    intro k x hx hpx hmin
    cases k with
    | zero =>
      have : a = x := by simpa [List.get?] using hx
      subst this
      simp [jsFindIndex, hpx]
    | succ k =>
      have ha : p a = false := hmin 0 a (Nat.succ_pos k) rfl
      have hx' : l.get? k = some x := by simpa [List.get?] using hx
      have hmin' : ∀ j y, j < k → l.get? j = some y → p y = false := by
        intro j y hj hy
        exact hmin (j + 1) y (Nat.succ_lt_succ hj) (by simpa [List.get?] using hy)
      have hrec : jsFindIndex p l = (k : Int) := ih k x hx' hpx hmin'
      have hne : ((k : Int)) ≠ -1 := by omega
      simp only [jsFindIndex, ha, if_false, hrec, Bool.false_eq_true]
      rw [if_neg hne]
      push_cast
      ring

theorem jsFindIndex_cases {p : α → Bool} :
    ∀ l : List α, jsFindIndex p l = -1 ∨
      ∃ k : Nat, jsFindIndex p l = (k : Int) ∧ k < l.length := by
  intro l
  induction l with
  | nil => exact Or.inl rfl
  | cons a l ih =>
    by_cases ha : p a = true
    · right
      exact ⟨0, by simp [jsFindIndex, ha], by simp⟩
    · have ha' : p a = false := by
        cases hpa : p a with
        | false => rfl
        | true => exact absurd hpa ha
      rcases ih with h | ⟨k, hk, hklt⟩
      · left
        simp [jsFindIndex, ha', h]
      · right
        refine ⟨k + 1, ?_, by simpa using Nat.succ_lt_succ hklt⟩
        have hne : ((k : Int)) ≠ -1 := by omega
        simp only [jsFindIndex, ha', Bool.false_eq_true, if_false, hk]
        rw [if_neg hne]
        push_cast
        ring

/-- A rendered DOM node: a text node or an element with a tag, an
attribute list (name/value pairs) and children.  This is the shape the
presenter view reads back from the main view via `querySelectorAll` and
`innerHTML`. -/
inductive DomNode where
  | text (s : String)
  | elem (tag : String) (attrs : List (String × String)) (children : List DomNode)

/-- Whether an attribute list carries the `data-speaker-notes` marker the
`SpeakerNotes` component places on its wrapper `div`. -/
def hasNotesAttr (attrs : List (String × String)) : Bool :=
  attrs.any (fun a => a.1 == "data-speaker-notes")

mutual

/-- The `textContent` of a DOM node: concatenation of all descendant
text. -/
def textContent : DomNode → String
  | .text s => s
  | .elem _ _ cs => textContentList cs

/-- The concatenated `textContent` of a node list. -/
def textContentList : List DomNode → String
  | [] => ""
  | c :: cs => textContent c ++ textContentList cs

end

mutual

/-- The first element matching `[data-speaker-notes]` in a subtree, in
document (pre-)order: `querySelector` semantics for a single attribute
selector. -/
def qsNotes : DomNode → Option DomNode
  | .text _ => none
  | .elem tag attrs cs =>
    if hasNotesAttr attrs then some (.elem tag attrs cs) else qsNotesList cs

/-- The first `[data-speaker-notes]` element among a list of subtrees. -/
def qsNotesList : List DomNode → Option DomNode
  | [] => none
  | c :: cs =>
    match qsNotes c with
    | some r => some r
    | none => qsNotesList cs

end

mutual

/-- A child surviving the `querySelectorAll` + `remove()` pass: `none`
when the child itself carries the marker, otherwise the child with every
marked descendant removed. -/
def removeNotesChild : DomNode → Option DomNode
  | .text s => some (.text s)
  | .elem tag attrs cs =>
    if hasNotesAttr attrs then none
    else some (.elem tag attrs (removeNotesList cs))

/-- Removal of every `[data-speaker-notes]` element from a node list. -/
def removeNotesList : List DomNode → List DomNode
  | [] => []
  | c :: cs =>
    match removeNotesChild c with
    | some d => d :: removeNotesList cs
    | none => removeNotesList cs

end

/-- Removal of every `[data-speaker-notes]` element below a node: the
pass the presenter runs on the cloned next slide (`querySelectorAll`
matches only descendants, so the node itself is kept). -/
def removeNotes : DomNode → DomNode
  | .text s => .text s
  | .elem tag attrs cs => .elem tag attrs (removeNotesList cs)

/-- Serialisation of an attribute list: a space before each attribute, a
bare name for an empty value and `name="value"` otherwise. -/
def attrsHTML (attrs : List (String × String)) : String :=
  attrs.foldl
    (fun acc a =>
      acc ++ " " ++ a.1 ++ (if a.2 = "" then "" else "=\"" ++ a.2 ++ "\"")) ""

mutual

/-- The HTML serialisation of a node including its own tags, as the
browser produces it inside `innerHTML` of the parent. -/
def outerHTML : DomNode → String
  | .text s => s
  | .elem tag attrs cs => "<" ++ tag ++ attrsHTML attrs ++ ">" ++ innerHTMLList cs ++ "</" ++ tag ++ ">"

/-- Concatenated serialisation of a node list. -/
def innerHTMLList : List DomNode → String
  | [] => ""
  | c :: cs => outerHTML c ++ innerHTMLList cs

end

/-- The `innerHTML` of an element: the serialisation of its children. -/
def innerHTML : DomNode → String
  | .text _ => ""
  | .elem _ _ cs => innerHTMLList cs

/-- Split a character list at the first occurrence of `pat`, returning
the part before and the part after the occurrence. -/
def listSplitFirst (pat : List Char) : List Char → Option (List Char × List Char)
  | [] => none
  | c :: cs =>
    if pat.isPrefixOf (c :: cs) then some ([], (c :: cs).drop pat.length)
    else
      match listSplitFirst pat cs with
      | some (b, a) => some (c :: b, a)
      | none => none

/-- Whether `pat` occurs as a contiguous substring of `l`. -/
def containsSub (pat : List Char) (l : List Char) : Bool :=
  (listSplitFirst pat l).isSome

/-- One match attempt of the pattern
`<div[^>]*data-speaker-notes[^>]*>.*?<\/div>` at the start of the input
(with the dot-matches-newline flag of the source).  Because the
character class excludes the closing angle bracket, the attribute region
of a match always ends at the first such bracket after the `<div`, and it
must contain the literal `data-speaker-notes`; the lazy tail ends at the
first following `</div>`.  On success the remainder after the match is
returned. -/
def matchNotesAt (cs : List Char) : Option (List Char) :=
  if ("<div".data).isPrefixOf cs then
    match listSplitFirst ['>'] (cs.drop 4) with
    | some (attrs, afterGt) =>
      if containsSub ("data-speaker-notes".data) attrs then
        match listSplitFirst ("</div>".data) afterGt with
        | some (_, afterClose) => some afterClose
        | none => none
      else none
    | none => none
  else none

/-- The global replace of the source
(`.replace(/<div[^>]*data-speaker-notes[^>]*>.*?<\/div>/gs, ...)` with the
empty string): scan left to right, drop each match and resume after it.
Fuel is the input length; every step consumes at least one character. -/
def stripLoop : Nat → List Char → List Char
  | 0, cs => cs
  | _ + 1, [] => []
  | fuel + 1, c :: cs =>
    match matchNotesAt (c :: cs) with
    | some rem => stripLoop fuel rem
    | none => c :: stripLoop fuel cs

/-- The regex-based speaker-notes strip applied to a serialised slide. -/
def stripNotesRegex (s : String) : String :=
  String.mk (stripLoop s.length s.data)

/-- The `currentNotes` projection of the presenter view: the
`textContent` of the first `[data-speaker-notes]` descendant of the
active section, or the empty string when the section or the notes node is
missing. -/
def presenterNotes (slides : List DomNode) (i : Nat) : String :=
  match slides.get? i with
  | some (.elem _ _ cs) =>
    match qsNotesList cs with
    | some n => textContent n
    | none => ""
  | some (.text _) => ""
  | none => ""

/-- The `nextSlidePreview` projection: the next section is cloned, every
`[data-speaker-notes]` descendant removed, and the clone serialised; the
empty string when no next section exists. -/
def nextSlidePreview (slides : List DomNode) (i : Nat) : String :=
  match slides.get? (i + 1) with
  | some sec => innerHTML (removeNotes sec)
  | none => ""

/-- The `currentSlideHTML` projection: the serialised active section with
the regex-based notes strip applied, or the empty string when the section
is missing. -/
def currentSlideHTML (slides : List DomNode) (i : Nat) : String :=
  match slides.get? i with
  | some sec => stripNotesRegex (innerHTML sec)
  | none => ""

/-- A sample paragraph root child. -/
def paraA : Node :=
  Node.mk "paragraph" "" []

/-- A second sample paragraph root child. -/
def paraB : Node :=
  Node.mk "paragraph" "" []

/-- A block quote whose only child is a nested thematic break. -/
def bqNode : Node :=
  Node.mk "blockquote" "" [tbNode]

/-- C1, counterexample: the empty document has a root-children sequence
with no thematic break, yet `remarkSlides` returns zero slide units
rather than exactly one. -/
theorem remarkSlides_nil_counterexample :
    (∀ n ∈ ([] : List Node), n.ntype ≠ "thematicBreak") ∧
    remarkSlides [] = [] ∧ (remarkSlides []).length ≠ 1 :=
  ⟨by simp, rfl, by decide⟩

/-- C1 (amended): for every document with at least one root child and
with no thematic break among the root children, `remarkSlides` returns
exactly one Slide unit whose children are every root child in original
order. -/
theorem remarkSlides_no_break_single_unit (children : List Node)
    (hne : children ≠ [])
    (hnb : ∀ n ∈ children, n.ntype ≠ "thematicBreak") :
    remarkSlides children = [mkSlide children] := by
  rw [remarkSlides, segmentLoop_no_break children [] [] hnb]
  have hlen : ([] ++ children).length > 0 := by
    cases children with
    | nil => exact absurd rfl hne
    | cons a l => simp
  rw [if_pos hlen]
  simp

/-- C1, witness: a two-paragraph document without breaks becomes a single
slide holding both paragraphs. -/
theorem remarkSlides_no_break_single_unit_wit :
    remarkSlides [paraA, paraB] = [mkSlide [paraA, paraB]] :=
  remarkSlides_no_break_single_unit [paraA, paraB] (by simp) (by decide)

/-- C2: segmentation splits only at root-level thematic breaks.  First,
the concatenated children of the produced slides are exactly the root
children with the root-level breaks dropped, each node kept verbatim with
its entire subtree (so nested breaks are left untouched).  Second, the
slide count is a function of the root-level type tags alone, so a break
nested anywhere below the root never changes it.  Third, a document with
one root-level break surrounded by content and one break embedded inside
a block quote yields exactly the two expected Slide units. -/
theorem remarkSlides_root_level_only :
    (∀ children : List Node,
      joinChildren (remarkSlides children) =
        children.filter (fun n => !(n.ntype == "thematicBreak"))) ∧
    (∀ c1 c2 : List Node, c1.map Node.ntype = c2.map Node.ntype →
      (remarkSlides c1).length = (remarkSlides c2).length) ∧
    (∀ a b : Node, a.ntype ≠ "thematicBreak" → b.ntype ≠ "thematicBreak" →
      remarkSlides [a, tbNode, bqNode, b] = [mkSlide [a], mkSlide [bqNode, b]]) := by
  refine ⟨?_, ?_, ?_⟩
  · intro children
    rw [remarkSlides, segmentLoop_join]
    simp [joinChildren]
  · intro c1 c2 h
    rw [remarkSlides, remarkSlides, segmentLoop_length, segmentLoop_length, h]
  · intro a b ha hb
    have htb : tbNode.ntype = "thematicBreak" := rfl
    have hbq : bqNode.ntype = "blockquote" := rfl
    simp [remarkSlides, segmentLoop, ha, hb, htb, hbq]

/-- C2, witness: the third part instantiated with two paragraphs, and the
second part instantiated with two single-paragraph documents. -/
theorem remarkSlides_root_level_only_wit :
    (remarkSlides [paraA]).length = (remarkSlides [paraB]).length ∧
    remarkSlides [paraA, tbNode, bqNode, paraB] =
      [mkSlide [paraA], mkSlide [bqNode, paraB]] :=
  ⟨remarkSlides_root_level_only.2.1 [paraA] [paraB] (by decide),
   remarkSlides_root_level_only.2.2 paraA paraB (by decide) (by decide)⟩

/-- C3: `remarkSlides` never emits an empty Slide unit: every element of
the output is a `Slide` container with at least one child; consequently a
document consisting only of thematic breaks yields no unit at all, and a
leading or trailing break contributes no empty unit. -/
theorem remarkSlides_no_empty_unit (children : List Node) :
    (∀ u ∈ remarkSlides children,
      u.ntype = "mdxJsxFlowElement" ∧ u.name = "Slide" ∧ u.children ≠ []) ∧
    ((∀ n ∈ children, n.ntype = "thematicBreak") → remarkSlides children = []) := by
  constructor
  · exact segmentLoop_units children [] [] (by simp)
  · intro h
    exact segmentLoop_all_breaks children [] h

/-- C3, witness: the one slide produced from a document with a leading
and a trailing break is non-empty, and a document of three consecutive
breaks produces no slide. -/
theorem remarkSlides_no_empty_unit_wit :
    (mkSlide [paraA]).children ≠ [] ∧
    remarkSlides [tbNode, tbNode, tbNode] = [] :=
  ⟨((remarkSlides_no_empty_unit [tbNode, paraA, tbNode]).1 (mkSlide [paraA])
      (by rw [show remarkSlides [tbNode, paraA, tbNode] = [mkSlide [paraA]] from rfl]
          simp)).2.2,
   (remarkSlides_no_empty_unit [tbNode, tbNode, tbNode]).2 (by decide)⟩

/-- C4, counterexample: re-segmenting the output for the empty document
yields zero units, not a single wrapping unit. -/
theorem remarkSlides_refeed_nil_counterexample :
    remarkSlides (remarkSlides []) = [] ∧
    (remarkSlides (remarkSlides [])).length ≠ 1 :=
  ⟨rfl, by decide⟩

/-- C4 (amended): whenever segmentation produced at least one Slide unit,
feeding the output back into `remarkSlides` as a root-children list
yields exactly one Slide unit wrapping all the previous units in order
(the output contains no thematic break); an empty output re-segments to
zero units. -/
theorem remarkSlides_refeed_single_unit (children : List Node)
    (h : remarkSlides children ≠ []) :
    remarkSlides (remarkSlides children) = [mkSlide (remarkSlides children)] := by
  have hunits := segmentLoop_units children [] [] (by simp)
  have hnb : ∀ u ∈ remarkSlides children, u.ntype ≠ "thematicBreak" := by
    intro u hu
    have h1 := (hunits u hu).1
    rw [h1]
    decide
  show segmentLoop [] [] (remarkSlides children) = _
  rw [segmentLoop_no_break (remarkSlides children) [] [] hnb]
  have hlen : (([] : List Node) ++ remarkSlides children).length > 0 := by
    simpa [List.length_pos] using h
  rw [if_pos hlen]
  simp

/-- C4, witness: a one-paragraph document segments to one slide, and
re-segmenting wraps that slide in a single unit. -/
theorem remarkSlides_refeed_single_unit_wit :
    remarkSlides (remarkSlides [paraA]) = [mkSlide (remarkSlides [paraA])] :=
  remarkSlides_refeed_single_unit [paraA]
    (by rw [show remarkSlides [paraA] = [mkSlide [paraA]] from rfl]
        simp)

/-- C5: on a scroll event the computed index is the position of the first
section (in document order) whose top edge lies in
`[0, innerHeight / 2)`; when no section qualifies the previous index is
retained, never `-1`; and with five equal full-viewport sections scrolled
exactly to the top of section 2 (zero-based) the computed index is 2. -/
theorem handleScroll_boundary_policy :
    (∀ (innerHeight : ℚ) (tops : List ℚ) (prev k : Nat) (t : ℚ),
      tops.get? k = some t → (0 ≤ t ∧ t < innerHeight / 2) →
      (∀ j u, j < k → tops.get? j = some u → ¬(0 ≤ u ∧ u < innerHeight / 2)) →
      handleScroll innerHeight tops prev = k) ∧
    (∀ (innerHeight : ℚ) (tops : List ℚ) (prev : Nat),
      (∀ t ∈ tops, ¬(0 ≤ t ∧ t < innerHeight / 2)) →
      handleScroll innerHeight tops prev = prev) ∧
    (∀ (innerHeight : ℚ) (prev : Nat), 0 < innerHeight →
      handleScroll innerHeight
        [-(2 * innerHeight), -innerHeight, 0, innerHeight, 2 * innerHeight] prev = 2) := by
  have hfirst : ∀ (innerHeight : ℚ) (tops : List ℚ) (prev k : Nat) (t : ℚ),
      tops.get? k = some t → (0 ≤ t ∧ t < innerHeight / 2) →
      (∀ j u, j < k → tops.get? j = some u → ¬(0 ≤ u ∧ u < innerHeight / 2)) →
      handleScroll innerHeight tops prev = k := by
    intro innerHeight tops prev k t hget hq hmin
    have hidx : jsFindIndex (fun top => decide (0 ≤ top ∧ top < innerHeight / 2)) tops
        = (k : Int) := by
      refine jsFindIndex_eq_of_first tops k t hget (by simpa using hq) ?_
      intro j y hj hy
      simpa using hmin j y hj hy
    simp only [handleScroll, hidx]
    rw [if_pos (by omega : ((k : Int)) ≠ -1)]
    simp
  refine ⟨hfirst, ?_, ?_⟩
  · intro innerHeight tops prev hall
    have hidx : jsFindIndex (fun top => decide (0 ≤ top ∧ top < innerHeight / 2)) tops
        = -1 := by
      refine jsFindIndex_of_all_false tops ?_
      intro x hx
      simpa using hall x hx
    simp only [handleScroll, hidx]
    simp
  · intro innerHeight prev hH
    refine hfirst innerHeight _ prev 2 0 rfl ⟨le_refl 0, by linarith⟩ ?_
    intro j u hj hu
    interval_cases j
    · have h : -(2 * innerHeight) = u := by simpa using hu
      subst h
      intro hc
      nlinarith [hc.1]
    · have h : -innerHeight = u := by simpa using hu
      subst h
      intro hc
      nlinarith [hc.1]

/-- C5, witness: viewport height 100, five sections with tops measured at
the scroll position that puts section 2 at the viewport top, previous
index 0: the computed index is 2. -/
theorem handleScroll_boundary_policy_wit :
    handleScroll 100 [-(2 * 100), -100, 0, 100, 2 * 100] 0 = 2 :=
  handleScroll_boundary_policy.2.2 100 0 (by norm_num)

/-- C6, counterexample: a window that hosts the presenter console and
receives `{SLIDE_CHANGE, 3}` while at index 0 of 5 slides navigates to
slide 3 and re-publishes `{SLIDE_CHANGE, 3}` — the `PresenterView` effect
keyed on `currentSlideIndex` fires on the received change, so such a view
does echo. -/
theorem presenter_echo_counterexample :
    (onSyncMessage true ⟨0, 5⟩ (SyncMsg.slideChange 3)).2 = [SyncMsg.slideChange 3] ∧
    (onSyncMessage true ⟨0, 5⟩ (SyncMsg.slideChange 3)).1.index = 3 := by
  decide

/-- C6 (amended): a view that does not host the presenter console — in
particular the main presentation window, the receiver in the spec
scenario — handles a received `SLIDE_CHANGE` by running `goToSlide`
(updating its index and navigating when the index addresses an existing
slide) and publishes no outbound broadcast in response. -/
theorem presentation_view_no_echo (s : ViewState) (i : Int) :
    (onSyncMessage false s (SyncMsg.slideChange i)).2 = [] ∧
    (onSyncMessage false s (SyncMsg.slideChange i)).1 = (goToSlide s i).1 ∧
    (0 ≤ i → i < (s.totalSlides : Int) →
      ((onSyncMessage false s (SyncMsg.slideChange i)).1.index : Int) = i) := by
  refine ⟨by simp [onSyncMessage], rfl, ?_⟩
  intro h1 h2
  simp [onSyncMessage, goToSlide, h1, h2]

/-- C6, witness: the spec scenario — the presentation view at index 0 of
5 slides receives `{SLIDE_CHANGE, 3}`: its index becomes 3 and it
publishes nothing. -/
theorem presentation_view_no_echo_wit :
    (onSyncMessage false ⟨0, 5⟩ (SyncMsg.slideChange 3)).2 = [] ∧
    ((onSyncMessage false ⟨0, 5⟩ (SyncMsg.slideChange 3)).1.index : Int) = 3 :=
  ⟨(presentation_view_no_echo ⟨0, 5⟩ 3).1,
   (presentation_view_no_echo ⟨0, 5⟩ 3).2.2 (by decide) (by decide)⟩

/-- C7: handling a `SLIDE_CHANGE` is idempotent — applying `goToSlide`
twice with the same index produces the same state as applying it once,
and in particular two identical `{SLIDE_CHANGE, 2}` messages leave the
index at 2 after either message (when slide 2 exists). -/
theorem goToSlide_idempotent (s : ViewState) (i : Int) :
    (goToSlide (goToSlide s i).1 i).1 = (goToSlide s i).1 ∧
    ((2 : Int) < (s.totalSlides : Int) →
      (goToSlide (goToSlide s 2).1 2).1.index = 2 ∧ (goToSlide s 2).1.index = 2) := by
  constructor
  · by_cases h : 0 ≤ i ∧ i < (s.totalSlides : Int)
    · simp [goToSlide, h]
    · simp [goToSlide, h]
  · intro h2
    have hc : (0 : Int) ≤ 2 ∧ (2 : Int) < (s.totalSlides : Int) := ⟨by norm_num, h2⟩
    simp [goToSlide, hc]

/-- C7, witness: at index 0 of 5 slides, receiving `{SLIDE_CHANGE, 2}`
twice leaves the index at 2, as does receiving it once. -/
theorem goToSlide_idempotent_wit :
    (goToSlide (goToSlide ⟨0, 5⟩ 2).1 2).1.index = 2 ∧
    (goToSlide (⟨0, 5⟩ : ViewState) 2).1.index = 2 :=
  (goToSlide_idempotent ⟨0, 5⟩ 2).2 (by decide)

/-- A rendered slide section whose speaker-notes node holds plain text:
`<section><h1>Welcome</h1><div class=... data-speaker-notes>ask
questions</div></section>`. -/
def goodSlide : DomNode :=
  .elem "section" []
    [.elem "h1" [] [.text "Welcome"],
     .elem "div" [("class", "speaker-notes hidden"), ("data-speaker-notes", "")]
       [.text "ask questions"]]

/-- A rendered slide section whose speaker-notes node contains a nested
`div` before the text `ask questions`; the failing input for the
regex-based strip. -/
def badSlide : DomNode :=
  .elem "section" []
    [.elem "h1" [] [.text "Title"],
     .elem "div" [("data-speaker-notes", "")]
       [.elem "div" [] [.text "warn"], .text " ask questions"]]

/-- A rendered slide section without any speaker-notes node. -/
def plainSlide : DomNode :=
  .elem "section" [] [.elem "h1" [] [.text "End"]]

/-- C8: evaluation of the three presenter projections.  On the slide
whose notes are plain text the claim holds: notes text exactly
`ask questions`, current markup with the notes stripped and free of that
text, next preview notes-stripped, empty projections when next slide or
notes are absent.  But on the slide whose notes contain a nested `div`
the regex strip of `currentSlideHTML` cuts only to the first closing
`div` tag, so the remainder of the notes — including `ask questions` —
survives in the main projection, contradicting the claim that the notes
sub-node is entirely stripped out (the DOM-based strip used for the next
preview removes it completely, showing the intent). -/
theorem presenterProjection_eval :
    presenterNotes [goodSlide, badSlide] 0 = "ask questions" ∧
    currentSlideHTML [goodSlide, badSlide] 0 = "<h1>Welcome</h1>" ∧
    containsSub ("ask questions".data) ((currentSlideHTML [goodSlide, badSlide] 0).data) = false ∧
    nextSlidePreview [goodSlide, badSlide] 0 = "<h1>Title</h1>" ∧
    nextSlidePreview [goodSlide, badSlide] 1 = "" ∧
    presenterNotes [plainSlide] 0 = "" ∧
    presenterNotes [goodSlide, badSlide] 1 = "warn ask questions" ∧
    currentSlideHTML [goodSlide, badSlide] 1 = "<h1>Title</h1> ask questions</div>" ∧
    containsSub ("ask questions".data) ((currentSlideHTML [goodSlide, badSlide] 1).data) = true := by
  decide

theorem goToSlide_bounds (s : ViewState) (i : Int) (h2 : s.index < s.totalSlides) :
    (goToSlide s i).1.totalSlides = s.totalSlides ∧
    (goToSlide s i).1.index < s.totalSlides := by
  by_cases h : 0 ≤ i ∧ i < (s.totalSlides : Int)
  · rw [goToSlide, if_pos h]
    refine ⟨rfl, ?_⟩
    show i.toNat < s.totalSlides
    omega
  · rw [goToSlide, if_neg h]
    exact ⟨rfl, h2⟩

theorem presenterGoToSlide_bounds (s : ViewState) (i : Int)
    (h2 : s.index < s.totalSlides) :
    (presenterGoToSlide s i).totalSlides = s.totalSlides ∧
    (presenterGoToSlide s i).index < s.totalSlides := by
  rw [presenterGoToSlide]
  by_cases h : 0 ≤ i ∧ i < (s.totalSlides : Int)
  · rw [if_pos h]
    exact goToSlide_bounds s i h2
  · rw [if_neg h]
    exact ⟨rfl, h2⟩

/-- C9: once at least one slide exists, every index-changing operation —
scroll-driven recomputation over the rendered sections, programmatic
jump, received `SLIDE_CHANGE`, presenter next/previous — preserves the
slide count and keeps the (natural-number) index strictly below it. -/
theorem viewStep_index_invariant (s : ViewState) (op : ViewOp)
    (_h1 : 0 < s.totalSlides) (h2 : s.index < s.totalSlides)
    (h3 : opWellFormed s op) :
    (viewStep s op).totalSlides = s.totalSlides ∧
    (viewStep s op).index < (viewStep s op).totalSlides := by
  cases op with
  | scroll innerHeight tops =>
    refine ⟨rfl, ?_⟩
    have htops : tops.length = s.totalSlides := h3
    show handleScroll innerHeight tops s.index < s.totalSlides
    rcases jsFindIndex_cases
        (p := fun top => decide (0 ≤ top ∧ top < innerHeight / 2)) tops with hc | ⟨k, hk, hklt⟩
    · simp only [handleScroll, hc]
      simpa using h2
    · simp only [handleScroll, hk]
      rw [if_pos (by omega : ((k : Int)) ≠ -1)]
      simpa using htops ▸ hklt
  | jump i =>
    have h := goToSlide_bounds s i h2
    refine ⟨h.1, ?_⟩
    show (goToSlide s i).1.index < (goToSlide s i).1.totalSlides
    rw [h.1]
    exact h.2
  | receive i =>
    have h := goToSlide_bounds s i h2
    refine ⟨h.1, ?_⟩
    show (goToSlide s i).1.index < (goToSlide s i).1.totalSlides
    rw [h.1]
    exact h.2
  | presenterNext =>
    have h := presenterGoToSlide_bounds s ((s.index : Int) + 1) h2
    refine ⟨h.1, ?_⟩
    show (presenterGoToSlide s ((s.index : Int) + 1)).index <
      (presenterGoToSlide s ((s.index : Int) + 1)).totalSlides
    rw [h.1]
    exact h.2
  | presenterPrev =>
    have h := presenterGoToSlide_bounds s ((s.index : Int) - 1) h2
    refine ⟨h.1, ?_⟩
    show (presenterGoToSlide s ((s.index : Int) - 1)).index <
      (presenterGoToSlide s ((s.index : Int) - 1)).totalSlides
    rw [h.1]
    exact h.2

/-- C9, witness: a single-slide view at index 0 jumping to slide 0 keeps
the invariant. -/
theorem viewStep_index_invariant_wit :
    (viewStep ⟨0, 1⟩ (ViewOp.jump 0)).totalSlides = 1 ∧
    (viewStep ⟨0, 1⟩ (ViewOp.jump 0)).index <
      (viewStep ⟨0, 1⟩ (ViewOp.jump 0)).totalSlides :=
  viewStep_index_invariant ⟨0, 1⟩ (ViewOp.jump 0) (by decide) (by decide) trivial

/-- C10: a `SLIDE_CHANGE` whose index addresses no existing slide
(negative, or at least `totalSlides`) is a complete no-op: `goToSlide`
leaves the state unchanged and performs no scroll, and the presenter-side
`goToSlide` also leaves the state unchanged. -/
theorem goToSlide_out_of_range_noop (s : ViewState) (i : Int)
    (h : i < 0 ∨ (s.totalSlides : Int) ≤ i) :
    goToSlide s i = (s, false) ∧ presenterGoToSlide s i = s := by
  have hc : ¬(0 ≤ i ∧ i < (s.totalSlides : Int)) := by omega
  exact ⟨by rw [goToSlide, if_neg hc], by rw [presenterGoToSlide, if_neg hc]⟩

/-- C10, witness: at index 1 of 3 slides, a received index of -1 and a
received index of 5 both change nothing and trigger no scroll. -/
theorem goToSlide_out_of_range_noop_wit :
    goToSlide ⟨1, 3⟩ (-1) = (⟨1, 3⟩, false) ∧ presenterGoToSlide ⟨1, 3⟩ 5 = ⟨1, 3⟩ :=
  ⟨(goToSlide_out_of_range_noop ⟨1, 3⟩ (-1) (Or.inl (by decide))).1,
   (goToSlide_out_of_range_noop ⟨1, 3⟩ 5 (Or.inr (by decide))).2⟩
